import Mathlib

/-!
# Verification of `chain_traits` (src/lib.rs) against its specification

The repository declares a family of Rust traits describing a generic
blockchain: `ByteEncodable`, `Block`, `HasUncles`, `BlockProvider` (with
two default method bodies), `Verifier`, `State`, and `Chain`.

Shallow embedding: each trait is a Lean structure bundling the trait's
methods as functions over a carrier type.  The only executable code in
the crate — the default bodies of `BlockProvider::transactions` and
`BlockProvider::uncles` (src/lib.rs lines 51-59) — is translated
directly.  Contracts whose implementations are absent from the crate
(the codec, the family verifier, state enactment) are modelled from the
spec's words and marked as such in their doc comments.
-/

/-- Embedding of the trait `Block` (src/lib.rs lines 7-25): a dictionary
of the pure accessors `parent`, `number`, `id`, `transactions` for a
carrier type `B` with identifier type `Id` and transaction type `Tx`. -/
structure BlockInstance (B Id Tx : Type) where
  parent : B → Id
  number : B → Nat
  id : B → Id
  transactions : B → List Tx

/-- Embedding of the trait `HasUncles` (src/lib.rs lines 28-34):
a `Block` dictionary extended with `uncles`, returning the list of
uncles of type `U`. -/
structure HasUnclesInstance (B Id Tx U : Type) extends BlockInstance B Id Tx where
  uncles : B → List U

/-- Embedding of the trait `BlockProvider` (src/lib.rs lines 37-60),
viewed through one provider value (the `self` of the Rust methods):
the two required lookups.  Both are partial (`Option`), absence meaning
"unknown". -/
structure BlockProvider (B Id : Type) where
  block : Id → Option B
  block_id : Nat → Option Id

/-- Default body of `BlockProvider::transactions` (src/lib.rs lines
57-59): `self.block(id).map(|b| b.transactions().to_vec())`. -/
def BlockProvider.transactions {B Id Tx : Type} (bp : BlockProvider B Id)
    (inst : BlockInstance B Id Tx) (i : Id) : Option (List Tx) :=
  (bp.block i).map (fun b => inst.transactions b)

/-- Default body of `BlockProvider::uncles` (src/lib.rs lines 52-54):
`self.block(id).map(|b| b.uncles())`, available when the block type
implements `HasUncles`. -/
def BlockProvider.uncles {B Id Tx U : Type} (bp : BlockProvider B Id)
    (inst : HasUnclesInstance B Id Tx U) (i : Id) : Option (List U) :=
  (bp.block i).map (fun b => inst.uncles b)

/-- C1: for every `BlockProvider` and id `i`, the derived operation
`transactions i` equals `(block i).map (transactions of the block)`;
in particular it is `some` of the block's ordered transaction list
exactly when `block i` is `some`, and `none` exactly when `block i`
is `none`. -/
theorem provider_transactions_consistency
    {B Id Tx : Type} (bp : BlockProvider B Id)
    (inst : BlockInstance B Id Tx) (i : Id) :
    bp.transactions inst i = (bp.block i).map (fun b => inst.transactions b) ∧
    (∀ b, bp.block i = some b → bp.transactions inst i = some (inst.transactions b)) ∧
    (bp.block i = none ↔ bp.transactions inst i = none) := by
  refine ⟨rfl, ?_, ?_⟩
  · intro b hb
    simp [BlockProvider.transactions, hb]
  · simp [BlockProvider.transactions]

/-- C2: for every `BlockProvider` whose block type implements
`HasUncles` and every id `i`, the derived operation `uncles i` equals
`(block i).map (uncles of the block)`: `some` of the block's uncle list
when the block is known, `none` when `block i` is `none`. -/
theorem provider_uncles_consistency
    {B Id Tx U : Type} (bp : BlockProvider B Id)
    (inst : HasUnclesInstance B Id Tx U) (i : Id) :
    bp.uncles inst i = (bp.block i).map (fun b => inst.uncles b) ∧
    (∀ b, bp.block i = some b → bp.uncles inst i = some (inst.uncles b)) ∧
    (bp.block i = none ↔ bp.uncles inst i = none) := by
  refine ⟨rfl, ?_, ?_⟩
  · intro b hb
    simp [BlockProvider.uncles, hb]
  · simp [BlockProvider.uncles]

/-- Embedding of the trait `ByteEncodable` (src/lib.rs line 4):
`Into<Vec<u8>> + for<'a> From<&'a [u8]>`.  Crucially, `From<&[u8]>` is
an INFALLIBLE conversion: every byte buffer, malformed or not, must be
turned into a value of `B`; the trait offers no error channel.  Bytes
are modelled as `List Nat`. -/
structure ByteEncodable (B : Type) where
  into_bytes : B → List Nat
  from_bytes : List Nat → B

/-- Modelled from the spec: the crate fixes no concrete transaction
type (`Block::Transaction` is an opaque associated type).  A minimal
transfer transaction — source account, destination account, amount —
giving `State::enact` something that can fail (insufficient balance). -/
structure MTx where
  source : Nat
  dest : Nat
  amount : Nat
deriving DecidableEq

/-- Modelled from the spec: a minimal concrete block satisfying the
`Block` and `HasUncles` contracts — parent id, number, own id, ordered
transaction list, uncle id list.  Ids are `Nat` (opaque,
equality-comparable). -/
structure MBlock where
  parent : Nat
  number : Nat
  id : Nat
  transactions : List MTx
  uncles : List Nat
deriving DecidableEq

/-- The `Block` dictionary for `MBlock`. -/
def mBlockInstance : BlockInstance MBlock Nat MTx where
  parent := MBlock.parent
  number := MBlock.number
  id := MBlock.id
  transactions := MBlock.transactions

/-- The `HasUncles` dictionary for `MBlock`. -/
def mUnclesInstance : HasUnclesInstance MBlock Nat MTx Nat where
  toBlockInstance := mBlockInstance
  uncles := MBlock.uncles

/-- Byte encoding of one transaction: its three fields. -/
def encTx (t : MTx) : List Nat :=
  [t.source, t.dest, t.amount]

/-- Byte encoding of a transaction list, in order. -/
def encTxs : List MTx → List Nat
  | [] => []
  | t :: ts => encTx t ++ encTxs ts

/-- Modelled from the spec: the crate contains no codec implementation
(`ByteEncodable` is a bare trait bound, with `// TODO: fallible
decoding`).  Encoding per the spec's round-trip intent: header fields,
a transaction count, the transactions, an uncle count, the uncles. -/
def encode (b : MBlock) : List Nat :=
  b.parent :: b.number :: b.id :: b.transactions.length ::
    (encTxs b.transactions ++ (b.uncles.length :: b.uncles))

/-- Decode `n` transactions from the front of a byte buffer, returning
the remaining bytes; fails on truncated input. -/
def decodeTxs : Nat → List Nat → Option (List MTx × List Nat)
  | 0, rest => some ([], rest)
  | n + 1, s :: d :: a :: rest =>
      (decodeTxs n rest).map (fun p => (⟨s, d, a⟩ :: p.1, p.2))
  | _ + 1, _ => none

/-- Modelled from the spec: fallible decoding, the behaviour §4.1 and
§9 require of a correct codec (the crate itself cannot express it, see
`ByteEncodable`).  Rejects truncated and trailing-garbage input. -/
def decode (bs : List Nat) : Option MBlock :=
  match bs with
  | p :: n :: i :: tlen :: rest =>
      match decodeTxs tlen rest with
      | some (txs, ulen :: urest) =>
          if urest.length = ulen then some ⟨p, n, i, txs, urest⟩ else none
      | _ => none
  | _ => none

/-- Decoding the encoding of a transaction list recovers it and leaves
the trailing bytes untouched. -/
theorem decodeTxs_encTxs (ts : List MTx) (rest : List Nat) :
    decodeTxs ts.length (encTxs ts ++ rest) = some (ts, rest) := by
  induction ts with
  | nil => simp [encTxs, decodeTxs]
  | cons t ts ih => simp [encTxs, encTx, decodeTxs, ih]

/-- C4: the codec round-trip law — for every block `b`, decoding the
byte buffer produced by encoding `b` yields `some b`, equal in all
fields (parent, number, id, transactions, and uncles). -/
theorem encode_decode_roundtrip (b : MBlock) :
    decode (encode b) = some b := by
  obtain ⟨p, n, i, txs, us⟩ := b
  simp [encode, decode, decodeTxs_encTxs]

/-- C5: the code's `ByteEncodable` contract is total in the decoding
direction — for ANY instance and ANY byte buffer, including malformed
ones, `from_bytes` yields a block; no decode error can be signalled.
By contrast the fallible `decode` the spec requires rejects the
malformed (empty) buffer.  This witnesses the gap the crate's own
`// TODO: fallible decoding` comment records. -/
theorem byteEncodable_cannot_fail {B : Type} (c : ByteEncodable B) :
    (∀ bs : List Nat, ∃ b : B, c.from_bytes bs = b) ∧ decode [] = none := by
  exact ⟨fun bs => ⟨c.from_bytes bs, rfl⟩, rfl⟩

/-- Modelled from the spec: a minimal concrete provider backing store —
a list of stored blocks, looked up by id (§3: conceptually a mapping
`Id → Block`). -/
structure MProvider where
  blocks : List MBlock

/-- Lookup of a stored block by id; `none` when the id is unknown. -/
def MProvider.lookup (p : MProvider) (i : Nat) : Option MBlock :=
  p.blocks.find? (fun b => b.id = i)

/-- The `BlockProvider` dictionary for a concrete `MProvider` value:
`block` is the id lookup, `block_id` the canonical-height lookup
(the id of the first stored block at that height). -/
def MProvider.dict (p : MProvider) : BlockProvider MBlock Nat where
  block := p.lookup
  block_id := fun n => (p.blocks.find? (fun b => b.number = n)).map MBlock.id

/-- The chain-specific errors of family verification (§7: missing
parent, number discontinuity). -/
inductive FamilyError where
  | unknownParent
  | numberDiscontinuity
deriving DecidableEq

/-- Modelled from the spec: `Verifier::verify_family` has no body in
the crate (src/lib.rs line 77 is a bare signature).  §4.5: checks
requiring the block's context — parent existence obtained exclusively
through the provider, and number continuity; a missing parent is a
verification failure, not a crash. -/
def verify_family (b : MBlock) (p : MProvider) : Except FamilyError Unit :=
  match p.lookup b.parent with
  | none => .error .unknownParent
  | some par =>
      if b.number = par.number + 1 then .ok () else .error .numberDiscontinuity

/-- C6: whenever the provider knows the parent of `b` but `b`'s number
is not the parent's number plus one, `verify_family` rejects the block
with a number-continuity error. -/
theorem verify_family_rejects_discontinuity
    (b : MBlock) (p : MProvider) (par : MBlock)
    (hpar : p.lookup b.parent = some par)
    (hnum : b.number ≠ par.number + 1) :
    verify_family b p = .error .numberDiscontinuity := by
  simp [verify_family, hpar, hnum]

/-- Witness for C6 — the spec's own scenario: a block with number 5
whose parent in the provider has number 3 is rejected with a
number-continuity error. -/
theorem verify_family_rejects_discontinuity_witness :
    verify_family ⟨10, 5, 11, [], []⟩ ⟨[⟨0, 3, 10, [], []⟩]⟩ =
      .error .numberDiscontinuity :=
  verify_family_rejects_discontinuity _ _ ⟨0, 3, 10, [], []⟩
    (by decide) (by decide)

/-- C7: whenever the provider does not know the parent of `b`,
`verify_family` terminates normally with an error result (it is a
total function returning `Except`, so it can neither crash nor touch
any state). -/
theorem verify_family_rejects_unknown_parent
    (b : MBlock) (p : MProvider)
    (hpar : p.lookup b.parent = none) :
    verify_family b p = .error .unknownParent := by
  simp [verify_family, hpar]

/-- Witness for C7: a block whose parent is absent from an empty
provider is rejected with an unknown-parent error. -/
theorem verify_family_rejects_unknown_parent_witness :
    verify_family ⟨10, 5, 11, [], []⟩ ⟨[]⟩ = .error .unknownParent :=
  verify_family_rejects_unknown_parent _ _ (by decide)

/-- The chain-specific enactment error (§7: the ledger rejects the
block's effects, e.g. insufficient balance). -/
inductive EnactError where
  | insufficientBalance
deriving DecidableEq

/-- Modelled from the spec: the global state — an account-balance
ledger, the "opaque mutable accumulator" of §3, as an association list
from account to balance. -/
structure MState where
  balances : List (Nat × Nat)
deriving DecidableEq

/-- Observable query on the state: the balance of an account
(0 when the account has never been touched). -/
def MState.query (s : MState) (a : Nat) : Nat :=
  (s.balances.lookup a).getD 0

/-- Write one account's balance. -/
def MState.setBal (s : MState) (a v : Nat) : MState :=
  ⟨(a, v) :: s.balances.filter (fun e => e.1 ≠ a)⟩

/-- Apply one transfer: fails when the source balance is too small. -/
def applyTx (s : MState) (t : MTx) : Except EnactError MState :=
  let bal := s.query t.source
  if t.amount ≤ bal then
    let s1 := s.setBal t.source (bal - t.amount)
    .ok (s1.setBal t.dest (s1.query t.dest + t.amount))
  else
    .error .insufficientBalance

/-- Apply a block's transactions in order to a working copy. -/
def applyTxs (s : MState) : List MTx → Except EnactError MState
  | [] => .ok s
  | t :: ts => match applyTx s t with
    | .ok s1 => applyTxs s1 ts
    | .error e => .error e

/-- Modelled from the spec: `State::enact` has no body in the crate
(src/lib.rs line 86 is a bare signature whose doc comment demands "In
case of failure, changes must not be applied").  The block's effects
are staged on a working copy; only on success does the copy replace
the state, so a failure leaves the original untouched.  The pair is
(result, state after the call), the embedding of `&mut self`. -/
def MState.enact (s : MState) (b : MBlock) : Except EnactError Unit × MState :=
  match applyTxs s b.transactions with
  | .ok s1 => (.ok (), s1)
  | .error e => (.error e, s)

/-- C3: enactment is atomic — for every block `b` whose enactment on
`s` fails, the state after the failed call is exactly `s`, so every
query result (any account's balance) is identical before and after. -/
theorem enact_atomic (s : MState) (b : MBlock) (e : EnactError) (a : Nat)
    (hfail : (s.enact b).1 = .error e) :
    (s.enact b).2 = s ∧ ((s.enact b).2).query a = s.query a := by
  unfold MState.enact at hfail ⊢
  cases h : applyTxs s b.transactions with
  | ok s1 => rw [h] at hfail; simp at hfail
  | error e1 => exact ⟨rfl, rfl⟩

/-- Witness for C3: enacting a block holding a 5-unit transfer out of
an empty ledger fails, and the ledger afterwards equals the ledger
before, with account 0's balance unchanged. -/
theorem enact_atomic_witness :
    ((MState.mk []).enact ⟨0, 1, 1, [⟨0, 1, 5⟩], []⟩).2 = MState.mk [] ∧
      (((MState.mk []).enact ⟨0, 1, 1, [⟨0, 1, 5⟩], []⟩).2).query 0 =
        (MState.mk []).query 0 :=
  enact_atomic (MState.mk []) ⟨0, 1, 1, [⟨0, 1, 5⟩], []⟩
    .insufficientBalance 0 (by rfl)

/-- C9: for the derived provider operations, `none` exclusively
signals an unknown id — whenever `block i` is `some b`, an empty
transaction list yields `some []` from `transactions i` (never
`none`), and, under `HasUncles`, an empty uncle list yields `some []`
from `uncles i`. -/
theorem provider_none_means_unknown
    {B Id Tx U : Type} (bp : BlockProvider B Id)
    (inst : HasUnclesInstance B Id Tx U) (i : Id) (b : B)
    (hb : bp.block i = some b) :
    (inst.transactions b = [] →
      bp.transactions inst.toBlockInstance i = some []) ∧
    (inst.uncles b = [] → bp.uncles inst i = some []) := by
  constructor
  · intro ht
    simp [BlockProvider.transactions, hb, ht]
  · intro hu
    simp [BlockProvider.uncles, hb, hu]

/-- Witness for C9: a concrete provider holding one block with no
transactions and no uncles answers `some []` to both derived queries
on that block's id. -/
theorem provider_none_means_unknown_witness :
    ((MProvider.mk [⟨0, 1, 7, [], []⟩]).dict.transactions mBlockInstance 7
        = some []) ∧
      ((MProvider.mk [⟨0, 1, 7, [], []⟩]).dict.uncles mUnclesInstance 7
        = some []) :=
  ⟨(provider_none_means_unknown (MProvider.mk [⟨0, 1, 7, [], []⟩]).dict
      mUnclesInstance 7 ⟨0, 1, 7, [], []⟩ (by decide)).1 (by decide),
   (provider_none_means_unknown (MProvider.mk [⟨0, 1, 7, [], []⟩]).dict
      mUnclesInstance 7 ⟨0, 1, 7, [], []⟩ (by decide)).2 (by decide)⟩

/-- Embedding of the trait `Verifier<B>` (src/lib.rs lines 63-78):
the three verification phases over a verifier carrier `V`.  Per the
Rust signatures, `verify_basic` and `verify_unordered` take only
`&self` and `&block`; `verify_family` additionally takes a
`&BlockProvider<Block=B>` trait object, embedded as a `BlockProvider`
record. -/
structure Verifier (V B Id E : Type) where
  verify_basic : V → B → Except E Unit
  verify_unordered : V → B → Except E Unit
  verify_family : V → B → BlockProvider B Id → Except E Unit

/-- Embedding of the trait `State` (src/lib.rs lines 81-87):
`enact` takes `&mut self`, embedded as a function returning the result
together with the state after the call. -/
structure State (S B ES : Type) where
  enact : S → B → Except ES Unit × S

/-- The `State` dictionary for the modelled ledger `MState`. -/
def mStateDict : State MState MBlock EnactError where
  enact := MState.enact

/-- A run of phase 1 in an ambient context: the Rust signature
`fn verify_basic(&self, block: &B)` (src/lib.rs line 68) gives the
phase no access to any provider or mutable state, so the context
arguments cannot influence the call. -/
def verifyBasicInContext {V B Id E S : Type} (vi : Verifier V B Id E)
    (v : V) (b : B) (_provider : BlockProvider B Id) (_st : S) :
    Except E Unit :=
  vi.verify_basic v b

/-- A run of phase 2 in an ambient context: the Rust signature
`fn verify_unordered(&self, block: &B)` (src/lib.rs line 72) likewise
admits no provider or state access. -/
def verifyUnorderedInContext {V B Id E S : Type} (vi : Verifier V B Id E)
    (v : V) (b : B) (_provider : BlockProvider B Id) (_st : S) :
    Except E Unit :=
  vi.verify_unordered v b

/-- C8: `verify_basic` and `verify_unordered` are pure functions of
the verifier and the candidate block alone — two runs of either phase
on the same verifier and block agree whatever providers and whatever
states (of any state type) surround the two runs. -/
theorem basic_unordered_pure
    {V B Id E S T : Type} (vi : Verifier V B Id E) (v : V) (b : B)
    (p1 p2 : BlockProvider B Id) (s1 : S) (s2 : T) :
    verifyBasicInContext vi v b p1 s1 = verifyBasicInContext vi v b p2 s2 ∧
    verifyUnorderedInContext vi v b p1 s1 =
      verifyUnorderedInContext vi v b p2 s2 :=
  ⟨rfl, rfl⟩

/-- The components a pipeline run touches: a verifier, a provider and
a state.  Each operation below is the embedding of one Rust method,
threading the world through the call: a `&self`/`&` argument makes the
world pass through unchanged, `&mut self` lets the state component be
replaced. -/
structure World (V B Id S : Type) where
  verifier : V
  provider : BlockProvider B Id
  state : S

/-- `Verifier::verify_basic` run against a world (`&self`, `&block`). -/
def runVerifyBasic {V B Id E S : Type} (vi : Verifier V B Id E)
    (w : World V B Id S) (b : B) : Except E Unit × World V B Id S :=
  (vi.verify_basic w.verifier b, w)

/-- `Verifier::verify_unordered` run against a world. -/
def runVerifyUnordered {V B Id E S : Type} (vi : Verifier V B Id E)
    (w : World V B Id S) (b : B) : Except E Unit × World V B Id S :=
  (vi.verify_unordered w.verifier b, w)

/-- `Verifier::verify_family` run against a world (`&self`, `&block`,
`&provider`). -/
def runVerifyFamily {V B Id E S : Type} (vi : Verifier V B Id E)
    (w : World V B Id S) (b : B) : Except E Unit × World V B Id S :=
  (vi.verify_family w.verifier b w.provider, w)

/-- `BlockProvider::block` run against a world (`&self`). -/
def runBlock {V B Id S : Type} (w : World V B Id S) (i : Id) :
    Option B × World V B Id S :=
  (w.provider.block i, w)

/-- `BlockProvider::block_id` run against a world (`&self`). -/
def runBlockId {V B Id S : Type} (w : World V B Id S) (n : Nat) :
    Option Id × World V B Id S :=
  (w.provider.block_id n, w)

/-- `BlockProvider::transactions` run against a world (`&self`). -/
def runTransactions {V B Id Tx S : Type} (inst : BlockInstance B Id Tx)
    (w : World V B Id S) (i : Id) : Option (List Tx) × World V B Id S :=
  (w.provider.transactions inst i, w)

/-- `BlockProvider::uncles` run against a world (`&self`). -/
def runUncles {V B Id Tx U S : Type} (inst : HasUnclesInstance B Id Tx U)
    (w : World V B Id S) (i : Id) : Option (List U) × World V B Id S :=
  (w.provider.uncles inst i, w)

/-- `State::enact` run against a world (`&mut self`): the one
operation whose signature lets the state component change. -/
def runEnact {V B Id S ES : Type} (sd : State S B ES)
    (w : World V B Id S) (b : B) : Except ES Unit × World V B Id S :=
  let r := sd.enact w.state b
  (r.1, { w with state := r.2 })

/-- C10: every verification phase and every provider lookup takes the
world read-only and leaves it unchanged, for every verifier, provider
and state; `enact` is the single operation whose `&mut self` signature
permits mutation, and it genuinely exercises it — enacting a concrete
funded transfer changes the ledger. -/
theorem verification_readonly_enact_sole_mutator :
    (∀ (V B Id E S : Type) (vi : Verifier V B Id E)
        (w : World V B Id S) (b : B),
      (runVerifyBasic vi w b).2 = w ∧ (runVerifyUnordered vi w b).2 = w ∧
        (runVerifyFamily vi w b).2 = w) ∧
    (∀ (V B Id S : Type) (w : World V B Id S) (i : Id) (n : Nat),
      (runBlock w i).2 = w ∧ (runBlockId w n).2 = w) ∧
    (∀ (V B Id Tx U S : Type) (inst : HasUnclesInstance B Id Tx U)
        (w : World V B Id S) (i : Id),
      (runTransactions inst.toBlockInstance w i).2 = w ∧
        (runUncles inst w i).2 = w) ∧
    (runEnact mStateDict
          (World.mk () (MProvider.mk []).dict (MState.mk [(0, 5)]))
          ⟨0, 1, 1, [⟨0, 1, 3⟩], []⟩).2.state ≠ MState.mk [(0, 5)] := by
  refine ⟨fun _ _ _ _ _ _ _ _ => ⟨rfl, rfl, rfl⟩,
    fun _ _ _ _ _ _ _ => ⟨rfl, rfl⟩,
    fun _ _ _ _ _ _ _ _ _ => ⟨rfl, rfl⟩, ?_⟩
  decide
